import Mathlib

/-!
Verification of the str2table selector-expression engine and cell value
inference engine, as a shallow embedding of the Rust sources.

Strings are modelled as lists of characters; the inputs of interest are
ASCII, so byte offsets coincide with character counts.  Machine
integers are modelled as natural numbers with explicit bounds (Rust's
usize parse fails on values of at least 2 to the 64).  Fallible Rust
code returns Option or an explicit outcome type; a Rust panic
(assertion failure or unwrap of an error) is modelled by a dedicated
outcome constructor.
-/

set_option linter.unusedVariables false
set_option maxRecDepth 8192

/-- Convert a Lean string literal to the character-list representation used
throughout this development. -/
def strL (s : String) : List Char := s.toList

/- ------------------------------------------------------------------ -/
/- Character classes used by the regular expressions in the sources.  -/
/- ------------------------------------------------------------------ -/

/-- Class [0-9] of the source regexes. -/
def isDigitC (c : Char) : Bool := 48 ≤ c.toNat && c.toNat ≤ 57

/-- Class [lcLC] (line or column marker). -/
def is_lc_char (c : Char) : Bool := c = 'l' || c = 'c' || c = 'L' || c = 'C'

/-- Class [rgbyxwRGBYXW] (color letter). -/
def is_color_char (c : Char) : Bool :=
  c = 'r' || c = 'g' || c = 'b' || c = 'y' || c = 'x' || c = 'w' ||
  c = 'R' || c = 'G' || c = 'B' || c = 'Y' || c = 'X' || c = 'W'

/-- Class [sifSIF] (force-type letter). -/
def is_sif_char (c : Char) : Bool :=
  c = 's' || c = 'i' || c = 'f' || c = 'S' || c = 'I' || c = 'F'

/-- ASCII lower-casing, used to model Rust's case-insensitive keyword
comparison for float literals. -/
def lowerChar (c : Char) : Char :=
  if 65 ≤ c.toNat && c.toNat ≤ 90 then Char.ofNat (c.toNat + 32) else c

/-- Case-insensitive equality of character lists (ASCII). -/
def eqCI (a b : List Char) : Bool := decide (a.map lowerChar = b.map lowerChar)

/-- ASCII whitespace as used by trimming (the inputs of interest are
ASCII, so the Unicode cases of Rust's char::is_whitespace are not
exercised). -/
def isWsp (c : Char) : Bool := c = ' ' || c = '\t' || c = '\n' || c = '\r'

/- ------------------------------------------------------------------ -/
/- Basic string operations mirroring the std library calls.           -/
/- ------------------------------------------------------------------ -/

/-- Rust str::split with a character predicate: splits into the (possibly
empty) fragments between separator characters, always at least one
fragment. -/
def splitOnPred (p : Char → Bool) : List Char → List (List Char)
  | [] => [[]]
  | c :: t =>
    if p c then [] :: splitOnPred p t
    else
      match splitOnPred p t with
      | g :: gs => (c :: g) :: gs
      | [] => [[c]]

/-- Rust str::split(',') . -/
def splitComma (s : List Char) : List (List Char) := splitOnPred (fun c => c = ',') s

/-- Rust str::trim restricted to ASCII whitespace. -/
def trimAscii (s : List Char) : List Char :=
  ((s.dropWhile isWsp).reverse.dropWhile isWsp).reverse

/-- Whether pat occurs as a contiguous subsequence of the second list. -/
def containsSeq (pat : List Char) : List Char → Bool
  | [] => pat.isEmpty
  | c :: t => pat.isPrefixOf (c :: t) || containsSeq pat t

/- ------------------------------------------------------------------ -/
/- Decimal / radix number parsing.                                    -/
/- ------------------------------------------------------------------ -/

/-- Nonempty all-decimal-digit string, the language of [0-9]+ . -/
def digits1 (l : List Char) : Bool := !l.isEmpty && l.all isDigitC

/-- Numeric value of a decimal digit string (most significant first). -/
def natOfDigits (l : List Char) : ℕ := l.foldl (fun acc c => acc * 10 + (c.toNat - 48)) 0

/-- Model of Rust str::parse::<usize>() on a pure digit string: fails on
the empty string, on non-digits and on overflow of the 64-bit usize. -/
def parseUsize (l : List Char) : Option ℕ :=
  if digits1 l && decide (natOfDigits l < 2 ^ 64) then some (natOfDigits l) else none

/-- Value of a (possibly hexadecimal) digit character. -/
def digitVal (c : Char) : ℕ :=
  if isDigitC c then c.toNat - 48
  else if 97 ≤ c.toNat && c.toNat ≤ 102 then c.toNat - 87
  else if 65 ≤ c.toNat && c.toNat ≤ 70 then c.toNat - 55 else 0

/-- Whether c is a valid digit in the given radix (2, 8, 10 or 16). -/
def isRadixDigit (radix : ℕ) (c : Char) : Bool :=
  (isDigitC c || (97 ≤ c.toNat && c.toNat ≤ 102) || (65 ≤ c.toNat && c.toNat ≤ 70)) &&
    decide (digitVal c < radix)

/-- Parse a nonempty digit string in the given radix (no sign, no
separators); this models the external ibig crate's digit parsing, which
rejects underscores and empty digit strings. -/
def digitsParse (radix : ℕ) (l : List Char) : Option ℕ :=
  if !l.isEmpty && l.all (isRadixDigit radix) then
    some (l.foldl (fun acc c => acc * radix + digitVal c) 0)
  else none

/-- Magnitude part of ibig's from_str_with_radix_prefix: an optional
lowercase 0b / 0o / 0x radix tag, then digits of that radix, defaulting
to decimal.  Modelled from the external ibig crate's documented
behaviour. -/
def ubigParseRadixTagged (s : List Char) : Option ℕ :=
  match s with
  | a :: b :: r =>
    if a = '0' && b = 'b' then digitsParse 2 r
    else if a = '0' && b = 'o' then digitsParse 8 r
    else if a = '0' && b = 'x' then digitsParse 16 r
    else digitsParse 10 s
  | _ => digitsParse 10 s

/-- Model of IBig::from_str_with_radix_prefix from the external ibig
crate: an optional sign, then the radix-tagged magnitude.  The result is
an unbounded integer (ibig is arbitrary precision). -/
def ibig_parse (s : List Char) : Option ℤ :=
  match s with
  | '-' :: r => (ubigParseRadixTagged r).map (fun n => -(n : ℤ))
  | '+' :: r => (ubigParseRadixTagged r).map (fun n => (n : ℤ))
  | _ => (ubigParseRadixTagged s).map (fun n => (n : ℤ))

/- ------------------------------------------------------------------ -/
/- The float-literal grammar of Rust's standard library.              -/
/- ------------------------------------------------------------------ -/

/-- Strip one optional leading sign. -/
def stripSign (s : List Char) : List Char :=
  match s with
  | '+' :: r => r
  | '-' :: r => r
  | _ => s

/-- Tail of an exponent: optional sign then a nonempty digit string and
nothing else. -/
def expTail (r : List Char) : Bool :=
  let r3 := stripSign r
  !(r3.takeWhile isDigitC).isEmpty && (r3.dropWhile isDigitC).isEmpty

/-- Optional exponent part: empty, or e / E followed by a signed count. -/
def expOpt (r : List Char) : Bool :=
  match r with
  | [] => true
  | 'e' :: r2 => expTail r2
  | 'E' :: r2 => expTail r2
  | _ => false

/-- The Number production of the documented f32 / f64 FromStr grammar:
Count followed by an optional dot, optional Count and optional
exponent, or a dot followed by a Count and an optional exponent. -/
def numberAccepts (t : List Char) : Bool :=
  match t with
  | '.' :: r => !(r.takeWhile isDigitC).isEmpty && expOpt (r.dropWhile isDigitC)
  | _ =>
    !(t.takeWhile isDigitC).isEmpty &&
      (match t.dropWhile isDigitC with
       | [] => true
       | '.' :: r2 => expOpt (r2.dropWhile isDigitC)
       | r => expOpt r)

/-- Acceptance by Rust's standard f64 (and f32) FromStr grammar: an
optional sign, then inf / infinity / nan case-insensitively, or a
Number.  Modelled from the standard library's documented grammar; the
f32 and f64 parsers accept exactly the same strings. -/
def float_accepts (s : List Char) : Bool :=
  let t := stripSign s
  eqCI t (strL "inf") || eqCI t (strL "infinity") || eqCI t (strL "nan") || numberAccepts t

/- ------------------------------------------------------------------ -/
/- Decimal rendering, for the Debug formatting used in diagnostics.   -/
/- ------------------------------------------------------------------ -/

/-- Decimal digit character of a value below ten. -/
def digitCharOf (d : ℕ) : Char := Char.ofNat (48 + d)

/-- Decimal digits of a natural number, most significant first; the
first argument is structural fuel so that the definition evaluates
inside the kernel. -/
def natToListGo : ℕ → ℕ → List Char
  | 0, _ => []
  | fuel + 1, n =>
    if n < 10 then [digitCharOf n] else natToListGo fuel (n / 10) ++ [digitCharOf (n % 10)]

/-- Decimal rendering of a natural number, most significant digit
first. -/
def natToList (n : ℕ) : List Char := natToListGo (n + 1) n

/- ------------------------------------------------------------------ -/
/- Error taxonomy (src/core/src/error.rs and src/core/src/error/*).   -/
/- ------------------------------------------------------------------ -/

/-- Severity of an error: Warning below Error below Fatal. -/
inductive ErrorLevel : Type
  | Warning
  | Error
  | Fatal
deriving DecidableEq

/-- Numeric rank of a severity, realising the derived order. -/
def ErrorLevel.rank : ErrorLevel → ℕ
  | .Warning => 0
  | .Error => 1
  | .Fatal => 2

/-- The comparison self.level() >= showing_level of the source. -/
def levelGeB (a b : ErrorLevel) : Bool := decide (b.rank ≤ a.rank)

/-- ErrorLevel::to_string of the source. -/
def level_tag : ErrorLevel → List Char
  | .Warning => strL "[Warning]"
  | .Error => strL "[Error]"
  | .Fatal => strL "[Fatal]"

/-- The data an ErrorType trait object exposes through its accessors
describe, level, reason, attempt and hint. -/
structure ErrorView where
  describe : List Char
  level : ErrorLevel
  reason : Option (List Char)
  attempt : Option (List Char)
  hint : Option (List Char)
deriving DecidableEq

/-- The provided trait method ErrorType::message: the severity tag and
description, then the attempted-fixes, how-to-fix and caused-by blocks
when present, surfaced only when the severity reaches the caller's
showing level. -/
def ErrorView.message (e : ErrorView) (showing_level : ErrorLevel) : List Char :=
  let m1 := level_tag e.level ++ e.describe
  let m2 := m1 ++ (match e.attempt with
    | none => []
    | some a => strL "\nProgram has tried this(these) attempt to fix this error:\n\t " ++ a)
  let m3 := m2 ++ (match e.hint with
    | none => []
    | some h => strL "\nYou may try the following method(s) to fix this:\n\t " ++ h ++ strL " ")
  let m4 := m3 ++ (match e.reason with
    | none => []
    | some r => strL "\nThis error is caused by the following reason(s):\n " ++ r)
  if levelGeB e.level showing_level then m4 else []

/-- Kinds of range errors (src/core/src/error/range_error.rs). -/
inductive RangeErrorKind : Type
  | OutOfRange
  | LeftSideError
  | RightSideError
  | BothSidesError
  | SingleNumberError
deriving DecidableEq

/-- RangeErrorKind::to_string. -/
def RangeErrorKind.toStr : RangeErrorKind → List Char
  | .OutOfRange => strL "OutOfRange"
  | .LeftSideError => strL "LeftSideError"
  | .RightSideError => strL "RightSideError"
  | .BothSidesError => strL "BothSidesError"
  | .SingleNumberError => strL "SingleNumberError"

/-- RangeErrorKind::get_reason. -/
def RangeErrorKind.get_reason : RangeErrorKind → List Char
  | .OutOfRange => strL "the value is out of the range."
  | .LeftSideError => strL "the left side of the range is missing or not a number."
  | .RightSideError => strL "the right side of the range is missing or not a number."
  | .BothSidesError => strL "both sides of the range are missing or not a number."
  | .SingleNumberError => strL "the single number is missing or not a number."

/-- The ErrorType view of a RangeError built by RangeError::new: its
trait reason() wraps the kind's reason with the offending value. -/
def RangeError.view (kind : RangeErrorKind) (error_value : Option (List Char)) : ErrorView :=
  { describe := kind.toStr
    level := .Error
    reason := some (strL "Error happens in \"" ++ error_value.getD [] ++ strL "\", where "
      ++ kind.get_reason)
    attempt := none
    hint := some (strL "Please check the ragne again.") }

/-- The ErrorType view of a KeywordMissing built by KeywordMissing::new. -/
def KeywordMissing.view (error_arg whole_arg : Option (List Char)) (keyword : List Char) :
    ErrorView :=
  { describe := keyword ++ strL " is missing or wrong."
    level := .Error
    reason :=
      if error_arg.isNone then none
      else some (strL "In " ++ whole_arg.getD [] ++ strL " where " ++ keyword
        ++ strL " is expected.")
    attempt := none
    hint := some (strL "Please check the keyword and try again.") }

/-- Debug rendering of a Vec of Strings, as interpolated by the
Conflicts reason format strings. -/
def debugStrVec (v : List (List Char)) : List Char :=
  strL "[" ++ (List.intercalate (strL ", ") (v.map (fun x => strL "\"" ++ x ++ strL "\"")))
    ++ strL "]"

/-- The ErrorType view of a Conflicts error built by Conflicts::new; the
reason depends on which of error_arg and the conflicts vector are
present. -/
def Conflicts.view (level : ErrorLevel) (error_arg : Option (List Char))
    (conflicts_vec : Option (List (List Char))) : ErrorView :=
  { describe := strL "This argument causes conflict(s)."
    level := level
    reason :=
      match error_arg, conflicts_vec with
      | none, none => none
      | some ea, none => some (ea ++ strL " has conflicts in it.")
      | none, some v => some (debugStrVec v ++ strL " conflict with each other.")
      | some ea, some v =>
        some (strL "In " ++ ea ++ strL ", " ++ debugStrVec v ++ strL " conflict with each other.")
    attempt := none
    hint := some (strL "Please check the conflict(s) and try again.") }

/-- Kinds of commandline-argument errors (src/core/src/error/arg_error.rs). -/
inductive ArgErrorKind : Type
  | NoImplementation
  | WrongFormat
  | Conflicts
  | FormatError
deriving DecidableEq

/-- ArgErrorKind::to_string. -/
def ArgErrorKind.toStr : ArgErrorKind → List Char
  | .NoImplementation => strL "NoImplementation"
  | .WrongFormat => strL "WrongFormat"
  | .Conflicts => strL "Conflicts"
  | .FormatError => strL "FormatError"

/-- ArgErrorKind::get_description. -/
def ArgErrorKind.get_description : ArgErrorKind → List Char
  | .NoImplementation => strL "This argument is not implemented fully."
  | .WrongFormat => strL "The format of this argument is wrong."
  | .Conflicts => strL "This argument causes conflict(s)"
  | .FormatError => strL "This file format is unsupported."

/-- ArgErrorKind::get_hint. -/
def ArgErrorKind.get_hint : ArgErrorKind → Option (List Char)
  | .NoImplementation => some (strL "Please wait for the next version.")
  | .WrongFormat => some (strL "Please check the format of this argument.")
  | .Conflicts => some (strL "Please check the reason.")
  | .FormatError => some (strL "Please check the format of the file.")

/-- ArgErrorKind::get_level. -/
def ArgErrorKind.get_level : ArgErrorKind → ErrorLevel
  | .NoImplementation => .Warning
  | .WrongFormat => .Error
  | .Conflicts => .Error
  | .FormatError => .Error

/-- The commandline-argument diagnostic (src/core/src/error/arg_error.rs). -/
structure ArgError where
  name : List Char
  description : List Char
  level : ErrorLevel
  reason : Option (List Char)
  error_arg : Option (List Char)
  whole_arg : Option (List Char)
  error_location : Option (ℕ × ℕ)
  hint : Option (List Char)
deriving DecidableEq

/-- ArgError::new; as in the source, a caller-supplied hint is replaced
by the kind's default hint, and an absent hint stays absent. -/
def ArgError.new (error_type : ArgErrorKind) (reason error_arg whole_arg : Option (List Char))
    (error_location : Option (ℕ × ℕ)) (hint : Option (List Char)) : ArgError :=
  { name := error_type.toStr
    description := error_type.get_description
    level := error_type.get_level
    reason := reason
    error_arg := error_arg
    whole_arg := whole_arg
    error_location := error_location
    hint := if hint.isNone then hint else error_type.get_hint }

/- ------------------------------------------------------------------ -/
/- Setting enums (src/core/src/setting/*).                            -/
/- ------------------------------------------------------------------ -/

/-- Line or column axis (src/core/src/setting/core.rs). -/
inductive LineColumn : Type
  | Line
  | Column
deriving DecidableEq

/-- LineColumn::from_str on the single captured axis character. -/
def lc_of_char (c : Char) : Option LineColumn :=
  if c = 'l' || c = 'L' then some .Line
  else if c = 'c' || c = 'C' then some .Column
  else none

/-- Table colors (src/core/src/setting/output.rs). -/
inductive OutputColor : Type
  | Black
  | Red
  | Green
  | Blue
  | Yellow
  | Grey
  | White
deriving DecidableEq

/-- OutputColor::from_str on the single captured color character. -/
def color_of_char (c : Char) : Option OutputColor :=
  if c = 'r' || c = 'R' then some .Red
  else if c = 'g' || c = 'G' then some .Green
  else if c = 'b' || c = 'B' then some .Blue
  else if c = 'y' || c = 'Y' then some .Yellow
  else if c = 'x' || c = 'X' then some .Grey
  else if c = 'w' || c = 'W' then some .White
  else none

/-- Derived Debug name of an OutputColor variant. -/
def OutputColor.debugStr : OutputColor → List Char
  | .Black => strL "Black"
  | .Red => strL "Red"
  | .Green => strL "Green"
  | .Blue => strL "Blue"
  | .Yellow => strL "Yellow"
  | .Grey => strL "Grey"
  | .White => strL "White"

/-- Forced cell type (src/core/src/setting/input.rs). -/
inductive ForceType : Type
  | S
  | I
  | F
deriving DecidableEq

/-- ForceType::from_str on the single captured type character. -/
def force_of_char (c : Char) : Option ForceType :=
  if c = 's' || c = 'S' then some .S
  else if c = 'i' || c = 'I' then some .I
  else if c = 'f' || c = 'F' then some .F
  else none

/-- Derived Debug name of a ForceType variant. -/
def ForceType.debugStr : ForceType → List Char
  | .S => strL "S"
  | .I => strL "I"
  | .F => strL "F"

/-- Debug rendering of a (usize, OutputColor) pair. -/
def debugPairColor (p : ℕ × OutputColor) : List Char :=
  strL "(" ++ natToList p.1 ++ strL ", " ++ p.2.debugStr ++ strL ")"

/-- Debug rendering of a (usize, ForceType) pair. -/
def debugPairForce (p : ℕ × ForceType) : List Char :=
  strL "(" ++ natToList p.1 ++ strL ", " ++ p.2.debugStr ++ strL ")"

/- ------------------------------------------------------------------ -/
/- Outcome of a fallible, possibly panicking Rust function.           -/
/- ------------------------------------------------------------------ -/

/-- Result of running one of the validators: a value, a diagnostic, or a
runtime panic (failed assertion or unwrap). -/
inductive ParseOutcome (α : Type) : Type
  | ok (a : α)
  | err (e : ArgError)
  | panic
deriving DecidableEq

/-- Whether the outcome is a diagnostic. -/
def ParseOutcome.isErrB {α} : ParseOutcome α → Bool
  | .err _ => true
  | _ => false

/-- The diagnostic of an err outcome, or a default placeholder. -/
def ParseOutcome.getErrD {α} : ParseOutcome α → ArgError
  | .err e => e
  | _ => ArgError.new .WrongFormat none none none none none

/- ------------------------------------------------------------------ -/
/- Stable sorting and adjacent deduplication (Vec::sort_by, dedup).   -/
/- ------------------------------------------------------------------ -/

/-- Insert x into a list sorted by the key, after all entries whose key
is not greater; together with the left fold below this realises the
specified behaviour of Rust's stable Vec::sort_by on a key
comparator. -/
def insertByKey {α : Type} (key : α → ℕ) (x : α) : List α → List α
  | [] => [x]
  | y :: ys => if key y ≤ key x then y :: insertByKey key x ys else x :: y :: ys

/-- Stable sort by a natural-number key. -/
def sortByKey {α : Type} (key : α → ℕ) (l : List α) : List α :=
  l.foldl (fun acc x => insertByKey key x acc) []

/-- Vec::dedup: remove consecutive repeated elements. -/
def dedupAdj {α : Type} [DecidableEq α] : List α → List α
  | [] => []
  | [a] => [a]
  | a :: b :: t => if a = b then dedupAdj (b :: t) else a :: dedupAdj (b :: t)

/-- First adjacent pair with equal keys, in order; this is the conflict
scan of the post-processing loops. -/
def adjDup {α : Type} (key : α → ℕ) : List α → Option (α × α)
  | a :: b :: t => if key a = key b then some (a, b) else adjDup key (b :: t)
  | _ => none

/-- Sort and remove duplicates on a plain index list (lines.sort();
lines.dedup() of the subtable validator). -/
def natSortDedup (l : List ℕ) : List ℕ := dedupAdj (sortByKey (fun n => n) l)

/-- The list of indices Rust's for loop over start..=stop visits: the
closed interval when start is at most stop, and nothing otherwise. -/
def rust_range_list (start stop : ℕ) : List ℕ :=
  if start ≤ stop then List.range' start (stop + 1 - start) else []

/- ------------------------------------------------------------------ -/
/- Shared diagnostic constructions of the validators.                 -/
/- ------------------------------------------------------------------ -/

/-- The ArgError a validator builds from a RangeError of the given kind:
ArgError::new(WrongFormat, Some(range_error.message(Warning)), ...). -/
def range_err_arg (kind : RangeErrorKind) (part whole : List Char) (loc : ℕ × ℕ) : ArgError :=
  ArgError.new .WrongFormat (some ((RangeError.view kind (some part)).message .Warning))
    (some part) (some whole) (some loc) none

/-- The ArgError a validator builds from a KeywordMissing with the given
keyword. -/
def keyword_err_arg (keyword : List Char) (part whole : List Char) (loc : ℕ × ℕ) : ArgError :=
  ArgError.new .WrongFormat
    (some ((KeywordMissing.view (some part) (some whole) keyword).message .Warning))
    (some part) (some whole) (some loc) none

/-- The ArgError a validator builds when no pattern of its regex set
matches a part. -/
def no_match_err_arg (msg part whole : List Char) (loc : ℕ × ℕ) : ArgError :=
  ArgError.new .WrongFormat (some msg) (some part) (some whole) (some loc) none

/- ------------------------------------------------------------------ -/
/- The subtable selector grammar (validate_export_subtable).          -/
/- Each recognizer is the language of one anchored pattern of the     -/
/- source RegexSet, in the same order.                                -/
/- ------------------------------------------------------------------ -/

/-- Pattern 0 of the subtable set, [0-9]+-[0-9]+[lcLC] anchored: a
correct range. -/
def sub_pat0 (s : List Char) : Bool :=
  !(s.takeWhile isDigitC).isEmpty &&
    (match s.dropWhile isDigitC with
     | '-' :: r2 =>
       !(r2.takeWhile isDigitC).isEmpty &&
         (match r2.dropWhile isDigitC with
          | [c] => is_lc_char c
          | _ => false)
     | _ => false)

/-- Pattern 1, [0-9]+[lcLC] anchored: a correct single. -/
def sub_pat1 (s : List Char) : Bool :=
  !(s.takeWhile isDigitC).isEmpty &&
    (match s.dropWhile isDigitC with
     | [c] => is_lc_char c
     | _ => false)

/-- Pattern 2, .*-[0-9]+[lcLC] anchored: wrong left side of a range.
The string must end with a dash, a nonempty digit run and an axis
letter. -/
def sub_pat2 (s : List Char) : Bool :=
  match s.reverse with
  | c :: r =>
    is_lc_char c && !(r.takeWhile isDigitC).isEmpty &&
      (match r.dropWhile isDigitC with
       | '-' :: _ => true
       | _ => false)
  | [] => false

/-- Pattern 3, [0-9]+-.*[lcLC] anchored: wrong right side of a range. -/
def sub_pat3 (s : List Char) : Bool :=
  !(s.takeWhile isDigitC).isEmpty &&
    (match s.dropWhile isDigitC with
     | '-' :: r2 =>
       (match r2.reverse with
        | c :: _ => is_lc_char c
        | [] => false)
     | _ => false)

/-- Pattern 4, .*-.*[lcLC] anchored: both sides wrong.  The string ends
with an axis letter and a dash occurs before it. -/
def sub_pat4 (s : List Char) : Bool :=
  match s.reverse with
  | c :: r => is_lc_char c && r.contains '-'
  | [] => false

/-- Pattern 5, .*[lcLC] anchored: wrong single number. -/
def sub_pat5 (s : List Char) : Bool :=
  match s.reverse with
  | c :: _ => is_lc_char c
  | [] => false

/-- Pattern 6, [0-9]+-[0-9]+.* anchored: axis keyword wrong after a
range. -/
def sub_pat6 (s : List Char) : Bool :=
  !(s.takeWhile isDigitC).isEmpty &&
    (match s.dropWhile isDigitC with
     | '-' :: r2 =>
       (match r2 with
        | d :: _ => isDigitC d
        | [] => false)
     | _ => false)

/-- Pattern 7, [0-9]+.* anchored: axis keyword wrong after a single. -/
def sub_pat7 (s : List Char) : Bool :=
  match s with
  | d :: _ => isDigitC d
  | [] => false

/-- The ordered subtable pattern set. -/
def subtable_pats : List (List Char → Bool) :=
  [sub_pat0, sub_pat1, sub_pat2, sub_pat3, sub_pat4, sub_pat5, sub_pat6, sub_pat7]

/-- Index of the first matching pattern, starting from i; RegexSet
matches are reported in pattern order, so matches[0] is this least
index. -/
def firstIdxAux (tok : List Char) : List (List Char → Bool) → ℕ → Option ℕ
  | [], _ => none
  | p :: ps, i => if p tok then some i else firstIdxAux tok ps (i + 1)

/-- Least matching pattern index of a token against a pattern set. -/
def firstIdx (pats : List (List Char → Bool)) (tok : List Char) : Option ℕ :=
  firstIdxAux tok pats 0

/-- Extraction for a token matched by subtable pattern 0, as performed
by parse_range_subtable via regex captures and unwraps; a none models a
panicking unwrap (only reachable through usize overflow on tokens of the
matched shape). -/
def parse_range_subtable (s : List Char) : Option ((ℕ × ℕ) × LineColumn) :=
  let d1 := s.takeWhile isDigitC
  match s.dropWhile isDigitC with
  | '-' :: r2 =>
    let d2 := r2.takeWhile isDigitC
    match r2.dropWhile isDigitC with
    | lcc :: _ =>
      match parseUsize d1, parseUsize d2, lc_of_char lcc with
      | some a, some b, some lc => some ((a, b), lc)
      | _, _, _ => none
    | [] => none
  | _ => none

/-- Extraction for a token matched by subtable pattern 1
(parse_single_subtable). -/
def parse_single_subtable (s : List Char) : Option (ℕ × LineColumn) :=
  let d := s.takeWhile isDigitC
  match s.dropWhile isDigitC with
  | lcc :: _ =>
    match parseUsize d, lc_of_char lcc with
    | some n, some lc => some (n, lc)
    | _, _ => none
  | [] => none

/-- The token loop of validate_export_subtable: s is the whole
expression (used in diagnostics), loc the running byte offset, and the
pair accumulates the line and column indices.  Note the source advances
loc by the part length only, without the separating comma. -/
def collect_subtable (s : List Char) :
    List (List Char) → ℕ → List ℕ × List ℕ → ParseOutcome (List ℕ × List ℕ)
  | [], _, acc => .ok acc
  | part :: rest, loc, (lines, columns) =>
    match firstIdx subtable_pats part with
    | none =>
      .err (no_match_err_arg (strL "There is more than one error in this part") part s
        (loc, loc + part.length))
    | some 0 =>
      match parse_range_subtable part with
      | none => .panic
      | some ((start, stop), lc) =>
        match lc with
        | .Line => collect_subtable s rest (loc + part.length)
            (lines ++ rust_range_list start stop, columns)
        | .Column => collect_subtable s rest (loc + part.length)
            (lines, columns ++ rust_range_list start stop)
    | some 1 =>
      match parse_single_subtable part with
      | none => .panic
      | some (num, lc) =>
        match lc with
        | .Line => collect_subtable s rest (loc + part.length) (lines ++ [num], columns)
        | .Column => collect_subtable s rest (loc + part.length) (lines, columns ++ [num])
    | some 2 => .err (range_err_arg .LeftSideError part s (loc, loc + part.length))
    | some 3 => .err (range_err_arg .RightSideError part s (loc, loc + part.length))
    | some 4 => .err (range_err_arg .BothSidesError part s (loc, loc + part.length))
    | some 5 => .err (range_err_arg .SingleNumberError part s (loc, loc + part.length))
    | some 6 => .err (keyword_err_arg (strL "line or column") part s (loc, loc + part.length))
    | some 7 => .err (keyword_err_arg (strL "line or column") part s (loc, loc + part.length))
    | some _ => collect_subtable s rest (loc + part.length) (lines, columns)

/-- validate_export_subtable of src/core/src/setting/output.rs: run the
token loop, then sort and deduplicate each axis list. -/
def validate_export_subtable (s : List Char) : ParseOutcome (List ℕ × List ℕ) :=
  match collect_subtable s (splitComma s) 0 ([], []) with
  | .ok (lines, columns) => .ok (natSortDedup lines, natSortDedup columns)
  | .err e => .err e
  | .panic => .panic

/- ------------------------------------------------------------------ -/
/- The color selector grammar (validate_export_color).                -/
/- ------------------------------------------------------------------ -/

/-- Pattern 0 of the color set, [0-9]+-[0-9]+[rgbyxwRGYBXW][lcLC]
anchored: a correct range. -/
def col_pat0 (s : List Char) : Bool :=
  !(s.takeWhile isDigitC).isEmpty &&
    (match s.dropWhile isDigitC with
     | '-' :: r2 =>
       !(r2.takeWhile isDigitC).isEmpty &&
         (match r2.dropWhile isDigitC with
          | [cc, lcc] => is_color_char cc && is_lc_char lcc
          | _ => false)
     | _ => false)

/-- Pattern 1, [0-9]+[rgbyxwRGYBXW][lcLC] anchored: a correct single. -/
def col_pat1 (s : List Char) : Bool :=
  !(s.takeWhile isDigitC).isEmpty &&
    (match s.dropWhile isDigitC with
     | [cc, lcc] => is_color_char cc && is_lc_char lcc
     | _ => false)

/-- Pattern 2, .*-[0-9]+[rgbyxwRGYBXW][lcLC] anchored: wrong left side.
The string ends with a dash, a nonempty digit run, a color letter and
an axis letter. -/
def col_pat2 (s : List Char) : Bool :=
  match s.reverse with
  | lcc :: cc :: r =>
    is_lc_char lcc && is_color_char cc && !(r.takeWhile isDigitC).isEmpty &&
      (match r.dropWhile isDigitC with
       | '-' :: _ => true
       | _ => false)
  | _ => false

/-- Pattern 3, [0-9]+-.*[rgbyxwRGYBXW][lcLC] anchored: wrong right
side. -/
def col_pat3 (s : List Char) : Bool :=
  !(s.takeWhile isDigitC).isEmpty &&
    (match s.dropWhile isDigitC with
     | '-' :: r2 =>
       (match r2.reverse with
        | lcc :: cc :: _ => is_lc_char lcc && is_color_char cc
        | _ => false)
     | _ => false)

/-- Pattern 4, .*-.*[rgbyxwRGYBXW][lcLC] anchored: both sides wrong. -/
def col_pat4 (s : List Char) : Bool :=
  match s.reverse with
  | lcc :: cc :: r => is_lc_char lcc && is_color_char cc && r.contains '-'
  | _ => false

/-- Pattern 5, .*[rgbyxwRGYBXW][lcLC] anchored: wrong single number. -/
def col_pat5 (s : List Char) : Bool :=
  match s.reverse with
  | lcc :: cc :: _ => is_lc_char lcc && is_color_char cc
  | _ => false

/-- Pattern 6, [0-9]+-[0-9]+[rgbyxwRGBYXW].* anchored: axis keyword
wrong after a colored range. -/
def col_pat6 (s : List Char) : Bool :=
  !(s.takeWhile isDigitC).isEmpty &&
    (match s.dropWhile isDigitC with
     | '-' :: r2 =>
       !(r2.takeWhile isDigitC).isEmpty &&
         (match r2.dropWhile isDigitC with
          | cc :: _ => is_color_char cc
          | [] => false)
     | _ => false)

/-- Pattern 7, [0-9]+[rgbyxwRGBYXW].* anchored: axis keyword wrong
after a colored single. -/
def col_pat7 (s : List Char) : Bool :=
  !(s.takeWhile isDigitC).isEmpty &&
    (match s.dropWhile isDigitC with
     | cc :: _ => is_color_char cc
     | [] => false)

/-- Pattern 8, [0-9]+-[0-9]+.*[lcLC] anchored: color keyword wrong in a
range.  After the dash there is a digit, the whole ends with an axis
letter, and at least two characters follow the dash. -/
def col_pat8 (s : List Char) : Bool :=
  !(s.takeWhile isDigitC).isEmpty &&
    (match s.dropWhile isDigitC with
     | '-' :: r2 =>
       (match r2 with
        | d :: _ => isDigitC d
        | [] => false) &&
       (match r2.reverse with
        | lcc :: _ :: _ => is_lc_char lcc
        | _ => false)
     | _ => false)

/-- Pattern 9, [0-9]+.*[lcLC] anchored: color keyword wrong in a
single. -/
def col_pat9 (s : List Char) : Bool :=
  (match s with
   | d :: _ => isDigitC d
   | [] => false) &&
  (match s.reverse with
   | lcc :: _ :: _ => is_lc_char lcc
   | _ => false)

/-- The ordered color pattern set. -/
def color_pats : List (List Char → Bool) :=
  [col_pat0, col_pat1, col_pat2, col_pat3, col_pat4, col_pat5, col_pat6, col_pat7,
   col_pat8, col_pat9]

/-- Extraction for a token matched by color pattern 0
(parse_range_color). -/
def parse_range_color (s : List Char) : Option ((ℕ × ℕ) × OutputColor × LineColumn) :=
  let d1 := s.takeWhile isDigitC
  match s.dropWhile isDigitC with
  | '-' :: r2 =>
    let d2 := r2.takeWhile isDigitC
    match r2.dropWhile isDigitC with
    | cc :: lcc :: _ =>
      match parseUsize d1, parseUsize d2, color_of_char cc, lc_of_char lcc with
      | some a, some b, some color, some lc => some ((a, b), color, lc)
      | _, _, _, _ => none
    | _ => none
  | _ => none

/-- Extraction for a token matched by color pattern 1
(parse_single_color). -/
def parse_single_color (s : List Char) : Option (ℕ × OutputColor × LineColumn) :=
  let d := s.takeWhile isDigitC
  match s.dropWhile isDigitC with
  | cc :: lcc :: _ =>
    match parseUsize d, color_of_char cc, lc_of_char lcc with
    | some n, some color, some lc => some (n, color, lc)
    | _, _, _ => none
  | _ => none

/-- The token loop of validate_export_color; as in the subtable loop the
running offset is advanced by the part length only. -/
def collect_color (s : List Char) :
    List (List Char) → ℕ → List (ℕ × OutputColor) × List (ℕ × OutputColor) →
    ParseOutcome (List (ℕ × OutputColor) × List (ℕ × OutputColor))
  | [], _, acc => .ok acc
  | part :: rest, loc, (lines, columns) =>
    match firstIdx color_pats part with
    | none =>
      .err (no_match_err_arg (strL "There is more than one error in this part") part s
        (loc, loc + part.length))
    | some 0 =>
      match parse_range_color part with
      | none => .panic
      | some ((start, stop), color, lc) =>
        match lc with
        | .Line => collect_color s rest (loc + part.length)
            (lines ++ (rust_range_list start stop).map (fun i => (i, color)), columns)
        | .Column => collect_color s rest (loc + part.length)
            (lines, columns ++ (rust_range_list start stop).map (fun i => (i, color)))
    | some 1 =>
      match parse_single_color part with
      | none => .panic
      | some (num, color, lc) =>
        match lc with
        | .Line => collect_color s rest (loc + part.length) (lines ++ [(num, color)], columns)
        | .Column => collect_color s rest (loc + part.length) (lines, columns ++ [(num, color)])
    | some 2 => .err (range_err_arg .LeftSideError part s (loc, loc + part.length))
    | some 3 => .err (range_err_arg .RightSideError part s (loc, loc + part.length))
    | some 4 => .err (range_err_arg .BothSidesError part s (loc, loc + part.length))
    | some 5 => .err (range_err_arg .SingleNumberError part s (loc, loc + part.length))
    | some 6 => .err (keyword_err_arg (strL "line or column") part s (loc, loc + part.length))
    | some 7 => .err (keyword_err_arg (strL "line or column") part s (loc, loc + part.length))
    | some 8 => .err (keyword_err_arg (strL "color") part s (loc, loc + part.length))
    | some 9 => .err (keyword_err_arg (strL "color") part s (loc, loc + part.length))
    | some _ => collect_color s rest (loc + part.length) (lines, columns)

/-- post_process_color of src/core/src/setting/output.rs: sort by index
(stably), drop exact duplicates, assert the list nonempty (a reachable
panic), then report the first adjacent pair sharing an index as a
Conflicts diagnostic. -/
def post_process_color (s : List Char) (result : List (ℕ × OutputColor)) :
    ParseOutcome (List (ℕ × OutputColor)) :=
  let r := dedupAdj (sortByKey Prod.fst result)
  if r.isEmpty then .panic
  else
    match adjDup Prod.fst r with
    | some (p, q) =>
      .err (ArgError.new .Conflicts
        (some ((Conflicts.view .Error (some s)
          (some [debugPairColor p, debugPairColor q])).message .Warning))
        (some s) (some s) none (some (strL "Please check the reason")))
    | none => .ok r

/-- validate_export_color of src/core/src/setting/output.rs. -/
def validate_export_color (s : List Char) :
    ParseOutcome (List (ℕ × OutputColor) × List (ℕ × OutputColor)) :=
  match collect_color s (splitComma s) 0 ([], []) with
  | .ok (lines, columns) =>
    match post_process_color s lines with
    | .ok lines2 =>
      match post_process_color s columns with
      | .ok columns2 => .ok (lines2, columns2)
      | .err e => .err e
      | .panic => .panic
    | .err e => .err e
    | .panic => .panic
  | .err e => .err e
  | .panic => .panic

/- ------------------------------------------------------------------ -/
/- The force-parse grammar (validate_force_parse, input.rs).          -/
/- Note this file maps pattern 2 to the wrong RIGHT side and pattern  -/
/- 3 to the wrong LEFT side, unlike output.rs.                        -/
/- ------------------------------------------------------------------ -/

/-- Pattern 0 of the force set, [0-9]+-[0-9]+[lcLC][sifSIF] anchored. -/
def force_pat0 (s : List Char) : Bool :=
  !(s.takeWhile isDigitC).isEmpty &&
    (match s.dropWhile isDigitC with
     | '-' :: r2 =>
       !(r2.takeWhile isDigitC).isEmpty &&
         (match r2.dropWhile isDigitC with
          | [lcc, tc] => is_lc_char lcc && is_sif_char tc
          | _ => false)
     | _ => false)

/-- Pattern 1, [0-9]+[lcLC][sifSIF] anchored. -/
def force_pat1 (s : List Char) : Bool :=
  !(s.takeWhile isDigitC).isEmpty &&
    (match s.dropWhile isDigitC with
     | [lcc, tc] => is_lc_char lcc && is_sif_char tc
     | _ => false)

/-- Pattern 2, [0-9]+-.*[lcLC][sifSIF] anchored: wrong right side. -/
def force_pat2 (s : List Char) : Bool :=
  !(s.takeWhile isDigitC).isEmpty &&
    (match s.dropWhile isDigitC with
     | '-' :: r2 =>
       (match r2.reverse with
        | tc :: lcc :: _ => is_sif_char tc && is_lc_char lcc
        | _ => false)
     | _ => false)

/-- Pattern 3, .*-[0-9]+[lcLC][sifSIF] anchored: wrong left side. -/
def force_pat3 (s : List Char) : Bool :=
  match s.reverse with
  | tc :: lcc :: r =>
    is_sif_char tc && is_lc_char lcc && !(r.takeWhile isDigitC).isEmpty &&
      (match r.dropWhile isDigitC with
       | '-' :: _ => true
       | _ => false)
  | _ => false

/-- Pattern 4, .*-.*[lcLC][sifSIF] anchored: both sides wrong. -/
def force_pat4 (s : List Char) : Bool :=
  match s.reverse with
  | tc :: lcc :: r => is_sif_char tc && is_lc_char lcc && r.contains '-'
  | _ => false

/-- Pattern 5, .*[lcLC][sifSIF] anchored: wrong single number. -/
def force_pat5 (s : List Char) : Bool :=
  match s.reverse with
  | tc :: lcc :: _ => is_sif_char tc && is_lc_char lcc
  | _ => false

/-- Pattern 6, [0-9]+-[0-9]+[lcLC].* anchored: type keyword wrong after
a range. -/
def force_pat6 (s : List Char) : Bool :=
  !(s.takeWhile isDigitC).isEmpty &&
    (match s.dropWhile isDigitC with
     | '-' :: r2 =>
       !(r2.takeWhile isDigitC).isEmpty &&
         (match r2.dropWhile isDigitC with
          | lcc :: _ => is_lc_char lcc
          | [] => false)
     | _ => false)

/-- Pattern 7, [0-9]+[lcLC].* anchored: type keyword wrong after a
single. -/
def force_pat7 (s : List Char) : Bool :=
  !(s.takeWhile isDigitC).isEmpty &&
    (match s.dropWhile isDigitC with
     | lcc :: _ => is_lc_char lcc
     | [] => false)

/-- Pattern 8, [0-9]+-[0-9]+.*[sifSIF] anchored: axis keyword wrong in
a range. -/
def force_pat8 (s : List Char) : Bool :=
  !(s.takeWhile isDigitC).isEmpty &&
    (match s.dropWhile isDigitC with
     | '-' :: r2 =>
       (match r2 with
        | d :: _ => isDigitC d
        | [] => false) &&
       (match r2.reverse with
        | tc :: _ :: _ => is_sif_char tc
        | _ => false)
     | _ => false)

/-- Pattern 9, [0-9]+.*[sifSIF] anchored: axis keyword wrong in a
single. -/
def force_pat9 (s : List Char) : Bool :=
  (match s with
   | d :: _ => isDigitC d
   | [] => false) &&
  (match s.reverse with
   | tc :: _ :: _ => is_sif_char tc
   | _ => false)

/-- The ordered force pattern set. -/
def force_pats : List (List Char → Bool) :=
  [force_pat0, force_pat1, force_pat2, force_pat3, force_pat4, force_pat5, force_pat6,
   force_pat7, force_pat8, force_pat9]

/-- The axis-conflict diagnostic built by parse_single_force and
parse_range_force when a token names the opposite axis from an earlier
token. -/
def axis_conflict_err (part whole : List Char) (loc : ℕ × ℕ) : ArgError :=
  ArgError.new .WrongFormat
    (some ((Conflicts.view .Error (some part) (some [strL "l", strL "c"])).message .Warning))
    (some part) (some whole) (some loc) none

/-- parse_range_force of src/core/src/setting/input.rs: extract bounds,
axis and type from a pattern-0 token, then reject an axis disagreeing
with an already bound one.  A none outcome models a panicking unwrap
(usize overflow). -/
def parse_range_force (part whole : List Char) (loc : ℕ × ℕ)
    (linecolumn : Option LineColumn) : ParseOutcome ((ℕ × ℕ) × LineColumn × ForceType) :=
  let d1 := part.takeWhile isDigitC
  match part.dropWhile isDigitC with
  | '-' :: r2 =>
    let d2 := r2.takeWhile isDigitC
    match r2.dropWhile isDigitC with
    | lcc :: tc :: _ =>
      match parseUsize d1, parseUsize d2, lc_of_char lcc, force_of_char tc with
      | some a, some b, some lc, some ft =>
        if some lc ≠ linecolumn && linecolumn.isSome then
          .err (axis_conflict_err part whole loc)
        else .ok ((a, b), lc, ft)
      | _, _, _, _ => .panic
    | _ => .panic
  | _ => .panic

/-- parse_single_force of src/core/src/setting/input.rs. -/
def parse_single_force (part whole : List Char) (loc : ℕ × ℕ)
    (linecolumn : Option LineColumn) : ParseOutcome (ℕ × LineColumn × ForceType) :=
  let d := part.takeWhile isDigitC
  match part.dropWhile isDigitC with
  | lcc :: tc :: _ =>
    match parseUsize d, lc_of_char lcc, force_of_char tc with
    | some n, some lc, some ft =>
      if some lc ≠ linecolumn && linecolumn.isSome then
        .err (axis_conflict_err part whole loc)
      else .ok (n, lc, ft)
    | _, _, _ => .panic
  | _ => .panic

/-- The token loop of validate_force_parse.  The parts have been
trimmed before the loop, and the running offset advances by the trimmed
part length plus one for the comma. -/
def collect_force (s : List Char) :
    List (List Char) → ℕ → List (ℕ × ForceType) → Option LineColumn →
    ParseOutcome (List (ℕ × ForceType) × Option LineColumn)
  | [], _, result, linecolumn => .ok (result, linecolumn)
  | part :: rest, loc, result, linecolumn =>
    match firstIdx force_pats part with
    | none =>
      .err (no_match_err_arg (strL "There is more than one error in this part.") part s
        (loc, loc + part.length))
    | some 0 =>
      match parse_range_force part s (loc, loc + part.length) linecolumn with
      | .ok ((start, stop), lc, ft) =>
        collect_force s rest (loc + part.length + 1)
          (result ++ (rust_range_list start stop).map (fun i => (i, ft))) (some lc)
      | .err e => .err e
      | .panic => .panic
    | some 1 =>
      match parse_single_force part s (loc, loc + part.length) linecolumn with
      | .ok (num, lc, ft) =>
        collect_force s rest (loc + part.length + 1) (result ++ [(num, ft)]) (some lc)
      | .err e => .err e
      | .panic => .panic
    | some 2 => .err (range_err_arg .RightSideError part s (loc, loc + part.length))
    | some 3 => .err (range_err_arg .LeftSideError part s (loc, loc + part.length))
    | some 4 => .err (range_err_arg .BothSidesError part s (loc, loc + part.length))
    | some 5 => .err (range_err_arg .SingleNumberError part s (loc, loc + part.length))
    | some 6 => .err (keyword_err_arg (strL "type") part s (loc, loc + part.length))
    | some 7 => .err (keyword_err_arg (strL "type") part s (loc, loc + part.length))
    | some 8 => .err (keyword_err_arg (strL "line or column") part s (loc, loc + part.length))
    | some 9 => .err (keyword_err_arg (strL "line or column") part s (loc, loc + part.length))
    | some _ => collect_force s rest (loc + part.length + 1) result linecolumn

/-- validate_force_parse of src/core/src/setting/input.rs: run the
(trimmed) token loop; if an axis was bound, sort, deduplicate, assert
nonempty (a reachable panic) and scan for index conflicts; otherwise
report the axis keyword as missing. -/
def validate_force_parse (s : List Char) :
    ParseOutcome (List (ℕ × ForceType) × LineColumn) :=
  match collect_force s ((splitComma s).map trimAscii) 0 [] none with
  | .ok (result, some linecolumn) =>
    let r := dedupAdj (sortByKey Prod.fst result)
    if r.isEmpty then .panic
    else
      match adjDup Prod.fst r with
      | some (p, q) =>
        .err (ArgError.new .Conflicts
          (some ((Conflicts.view .Error (some s)
            (some [debugPairForce p, debugPairForce q])).message .Warning))
          (some s) (some s) none (some (strL "Please check the reason.")))
      | none => .ok (r, linecolumn)
  | .ok (_, none) =>
    .err (ArgError.new .WrongFormat
      (some ((KeywordMissing.view (some s) (some s) (strL "line or column")).message .Warning))
      (some s) (some s) none none)
  | .err e => .err e
  | .panic => .panic

/- ------------------------------------------------------------------ -/
/- Cell values with arbitrary-precision integers                      -/
/- (src/src/tablecellcore.rs; the core crate declares an identical    -/
/- tablecellcore module, whose source file is not in the snapshot,    -/
/- for use by src/core/src/tablecell.rs).                             -/
/- ------------------------------------------------------------------ -/

/-- A cell value: an opaque string, an arbitrary-precision integer, or
a double-precision float.  The float payload is represented by the
accepted literal; the claims under verification never inspect the
numeric value of a float payload, only which constructor holds. -/
inductive Tablecellcore : Type
  | String (s : List Char)
  | Int (v : ℤ)
  | Float (literal : List Char)
deriving DecidableEq

namespace Tablecellcore

/-- Tablecellcore::auto_from: arbitrary-precision integer parse first,
then the f64 parse, else an opaque string. -/
def auto_from (value : List Char) : Tablecellcore :=
  match ibig_parse value with
  | some v => .Int v
  | none => if float_accepts value then .Float value else .String value

/-- Tablecellcore::force_as_int: only the integer conversion, an error
when the literal does not parse (the library error payload is not
modelled). -/
def force_as_int (value : List Char) : Except Unit Tablecellcore :=
  match ibig_parse value with
  | some v => .ok (.Int v)
  | none => .error ()

/-- Tablecellcore::force_as_float. -/
def force_as_float (value : List Char) : Except Unit Tablecellcore :=
  if float_accepts value then .ok (.Float value) else .error ()

/-- Tablecellcore::force_as_string, which cannot fail. -/
def force_as_string (value : List Char) : Tablecellcore := .String value

end Tablecellcore

/- ------------------------------------------------------------------ -/
/- The core crate's colored cell (src/core/src/tablecell.rs).         -/
/- ------------------------------------------------------------------ -/

namespace Core

/-- The core crate's Tablecell: a Tablecellcore with a color. -/
structure Tablecell where
  core : Tablecellcore
  color : OutputColor
deriving DecidableEq

/-- Tablecell::auto_from, with the default (black) color. -/
def Tablecell.auto_from (value : List Char) : Tablecell :=
  { core := Tablecellcore.auto_from value, color := .Black }

/-- Tablecell::from_type: dispatch on the forced type, unwrapping the
strict conversions, so a failed integer or float parse panics (modelled
by none). -/
def Tablecell.from_type (value : List Char) (force_type : ForceType) : Option Tablecell :=
  match force_type with
  | .S => some { core := Tablecellcore.force_as_string value, color := .Black }
  | .I =>
    match Tablecellcore.force_as_int value with
    | .ok c => some { core := c, color := .Black }
    | .error _ => none
  | .F =>
    match Tablecellcore.force_as_float value with
    | .ok c => some { core := c, color := .Black }
    | .error _ => none

/-- Tablecell::force_as_string. -/
def Tablecell.force_as_string (value : List Char) : Tablecell :=
  { core := Tablecellcore.force_as_string value, color := .Black }

/-- Tablecell::force_as_int, the advisory forced conversion: fall back
to full auto-inference when the strict conversion fails. -/
def Tablecell.force_as_int (value : List Char) : Tablecell :=
  match Tablecellcore.force_as_int value with
  | .ok cell => { core := cell, color := .Black }
  | .error _ => Tablecell.auto_from value

/-- Tablecell::force_as_float, the advisory forced conversion. -/
def Tablecell.force_as_float (value : List Char) : Tablecell :=
  match Tablecellcore.force_as_float value with
  | .ok cell => { core := cell, color := .Black }
  | .error _ => Tablecell.auto_from value

end Core

/- ------------------------------------------------------------------ -/
/- The root crate's rich cell (src/src/tablecell.rs), whose float     -/
/- branch decides between single and double precision.                -/
/- ------------------------------------------------------------------ -/

/-- The operations of the standard library's f32 and f64 the rich cell
inference calls.  The values of the two float types are abstract; the
fields model parse::<f32>, parse::<f64>, is_infinite, is_nan,
comparison with (minus) zero, and to_string. -/
structure FloatLib (Fs Fd : Type) where
  parse32 : List Char → Option Fs
  parse64 : List Char → Option Fd
  is_infinite : Fs → Bool
  is_nan : Fs → Bool
  eq_zero : Fs → Bool
  eq_neg_zero : Fs → Bool
  to_string32 : Fs → List Char
  to_string64 : Fd → List Char
  eq_zero64 : Fd → Bool

namespace Rich

/-- The root crate's Tablecell, tagged by the chosen machine type; the
integer payloads are the parsed values, the float payloads are the
abstract library values. -/
inductive Tablecell (Fs Fd : Type) : Type
  | String (s : List Char)
  | U8 (v : ℕ)
  | U16 (v : ℕ)
  | U32 (v : ℕ)
  | U64 (v : ℕ)
  | U128 (v : ℕ)
  | I8 (v : ℤ)
  | I16 (v : ℤ)
  | I32 (v : ℤ)
  | I64 (v : ℤ)
  | I128 (v : ℤ)
  | F32 (v : Fs)
  | F64 (v : Fd)
deriving DecidableEq

/-- Rust str::parse for an unsigned machine integer with the given
maximum: an optional plus sign then decimal digits, failing on
overflow. -/
def rust_parse_u (max : ℕ) (s : List Char) : Option ℕ :=
  let t := match s with
    | '+' :: r => r
    | _ => s
  if digits1 t then
    let v := natOfDigits t
    if v ≤ max then some v else none
  else none

/-- Rust str::parse for a signed machine integer with the given
magnitude bounds (maxNeg for minus, maxPos for plus). -/
def rust_parse_i (maxNeg maxPos : ℕ) (s : List Char) : Option ℤ :=
  match s with
  | '-' :: r =>
    if digits1 r then
      let v := natOfDigits r
      if v ≤ maxNeg then some (-(v : ℤ)) else none
    else none
  | '+' :: r =>
    if digits1 r then
      let v := natOfDigits r
      if v ≤ maxPos then some ((v : ℤ)) else none
    else none
  | _ =>
    if digits1 s then
      let v := natOfDigits s
      if v ≤ maxPos then some ((v : ℤ)) else none
    else none

/-- The integer cascade of Tablecell::auto_from: u8 through u128 then
i8 through i128, first success wins. -/
def int_cell {Fs Fd : Type} (value : List Char) : Option (Tablecell Fs Fd) :=
  match rust_parse_u (2 ^ 8 - 1) value with
  | some v => some (.U8 v)
  | none =>
  match rust_parse_u (2 ^ 16 - 1) value with
  | some v => some (.U16 v)
  | none =>
  match rust_parse_u (2 ^ 32 - 1) value with
  | some v => some (.U32 v)
  | none =>
  match rust_parse_u (2 ^ 64 - 1) value with
  | some v => some (.U64 v)
  | none =>
  match rust_parse_u (2 ^ 128 - 1) value with
  | some v => some (.U128 v)
  | none =>
  match rust_parse_i (2 ^ 7) (2 ^ 7 - 1) value with
  | some v => some (.I8 v)
  | none =>
  match rust_parse_i (2 ^ 15) (2 ^ 15 - 1) value with
  | some v => some (.I16 v)
  | none =>
  match rust_parse_i (2 ^ 31) (2 ^ 31 - 1) value with
  | some v => some (.I32 v)
  | none =>
  match rust_parse_i (2 ^ 63) (2 ^ 63 - 1) value with
  | some v => some (.I64 v)
  | none =>
  match rust_parse_i (2 ^ 127) (2 ^ 127 - 1) value with
  | some v => some (.I128 v)
  | none => none

/-- The fragment split on dot, e and E used by the zero-precision
scan. -/
def split_dot_e (s : List Char) : List (List Char) :=
  splitOnPred (fun c => c = '.' || c = 'e' || c = 'E') s

/-- The scan of the split fragments: does any segment parse as f64 to a
value other than zero? -/
def zero_scan {Fs Fd : Type} (lib : FloatLib Fs Fd) (segs : List (List Char)) : Bool :=
  segs.any (fun part =>
    match lib.parse64 part with
    | some v => !lib.eq_zero64 v
    | none => false)

/-- Tablecell::auto_from of src/src/tablecell.rs.  The integer cascade
first; otherwise parse as f32 (failure means string), unwrap the f64
parse (none models that panicking unwrap), keep infinities at f64 and
NaNs at f32, and for values rendering identically at both precisions
apply the zero-precision scan; a none from the f64 unwrap is the only
panic. -/
def Tablecell.auto_from {Fs Fd : Type} (lib : FloatLib Fs Fd) (value : List Char) :
    Option (Tablecell Fs Fd) :=
  match int_cell value with
  | some c => some c
  | none =>
    match lib.parse32 value with
    | none => some (.String value)
    | some v32 =>
      match lib.parse64 value with
      | none => none
      | some v64 =>
        if lib.is_infinite v32 then some (.F64 v64)
        else if lib.is_nan v32 then some (.F32 v32)
        else if decide (lib.to_string32 v32 = lib.to_string64 v64) &&
            (lib.eq_zero v32 || lib.eq_neg_zero v32) then
          if zero_scan lib (split_dot_e value) then some (.F64 v64) else some (.F32 v32)
        else if decide (lib.to_string32 v32 = lib.to_string64 v64) then some (.F32 v32)
        else some (.F64 v64)

end Rich

/- ------------------------------------------------------------------ -/
/- List lemmas: takeWhile / dropWhile over digit blocks, splitting.   -/
/- ------------------------------------------------------------------ -/

theorem takeWhile_all_append (p : Char → Bool) (l1 l2 : List Char)
    (h : ∀ c ∈ l1, p c = true) :
    (l1 ++ l2).takeWhile p = l1 ++ l2.takeWhile p := by
  induction l1 with
  | nil => simp
  | cons c t ih =>
    have hc : p c = true := h c (by simp)
    simp only [List.cons_append, List.takeWhile_cons_of_pos hc]
    rw [ih (fun x hx => h x (by simp [hx]))]

theorem dropWhile_all_append (p : Char → Bool) (l1 l2 : List Char)
    (h : ∀ c ∈ l1, p c = true) :
    (l1 ++ l2).dropWhile p = l2.dropWhile p := by
  induction l1 with
  | nil => simp
  | cons c t ih =>
    have hc : p c = true := h c (by simp)
    simp only [List.cons_append, List.dropWhile_cons_of_pos hc]
    exact ih (fun x hx => h x (by simp [hx]))

theorem takeWhile_cons_false (p : Char → Bool) (c : Char) (l : List Char)
    (h : p c = false) : (c :: l).takeWhile p = [] := by
  simp [List.takeWhile_cons_of_neg, h]

theorem dropWhile_cons_false (p : Char → Bool) (c : Char) (l : List Char)
    (h : p c = false) : (c :: l).dropWhile p = c :: l := by
  simp [List.dropWhile_cons_of_neg, h]

theorem digits1_all {l : List Char} (h : digits1 l = true) : ∀ c ∈ l, isDigitC c = true := by
  have := (Bool.and_eq_true _ _).mp h
  exact fun c hc => List.all_eq_true.mp this.2 c hc

theorem digits1_ne_nil {l : List Char} (h : digits1 l = true) : l ≠ [] := by
  have := (Bool.and_eq_true _ _).mp h
  intro hnil
  subst hnil
  simp at this

/-- A character of a digit string cannot be any concrete non-digit
character. -/
theorem ne_of_digit {c x : Char} (h : isDigitC c = true) (hx : isDigitC x = false) : c ≠ x := by
  intro he
  rw [he, hx] at h
  exact Bool.false_ne_true h

theorem splitOnPred_no_sep (p : Char → Bool) (l : List Char)
    (h : ∀ c ∈ l, p c = false) : splitOnPred p l = [l] := by
  induction l with
  | nil => rfl
  | cons c t ih =>
    have hc : p c = false := h c (by simp)
    simp [splitOnPred, hc, ih (fun x hx => h x (by simp [hx]))]

theorem splitComma_no_comma (l : List Char) (h : ∀ c ∈ l, (c = ',') = False) :
    splitComma l = [l] := by
  refine splitOnPred_no_sep _ l (fun c hc => ?_)
  have := h c hc
  simp only [decide_eq_false_iff_not]
  intro he
  rw [← this, he]

/- ------------------------------------------------------------------ -/
/- Sortedness lemmas for the stable insertion sort and adjacent       -/
/- deduplication, used by the order-invariance claim.                 -/
/- ------------------------------------------------------------------ -/

/-- Adjacent non-decreasing order on a plain index list. -/
def sortedLeB : List ℕ → Bool
  | [] => true
  | [_] => true
  | a :: b :: t => decide (a ≤ b) && sortedLeB (b :: t)

/-- Adjacent strictly increasing order on a plain index list. -/
def sortedLtB : List ℕ → Bool
  | [] => true
  | [_] => true
  | a :: b :: t => decide (a < b) && sortedLtB (b :: t)

theorem mem_insertByKey {α : Type} (key : α → ℕ) (x : α) (l : List α) (a : α) :
    a ∈ insertByKey key x l ↔ a = x ∨ a ∈ l := by
  induction l with
  | nil => simp [insertByKey]
  | cons y ys ih =>
    simp only [insertByKey]
    split
    · simp only [List.mem_cons, ih]
      tauto
    · simp only [List.mem_cons]

theorem mem_sortByKey {α : Type} (key : α → ℕ) (l : List α) (a : α) :
    a ∈ sortByKey key l ↔ a ∈ l := by
  suffices h : ∀ (l acc : List α), a ∈ l.foldl (fun acc x => insertByKey key x acc) acc ↔
      a ∈ acc ∨ a ∈ l by
    have := h l []
    simpa [sortByKey] using this
  intro l
  induction l with
  | nil => simp
  | cons x t ih =>
    intro acc
    simp only [List.foldl_cons, ih, mem_insertByKey, List.mem_cons]
    tauto

theorem sortedLeB_cons_of {a : ℕ} {l : List ℕ} (hl : sortedLeB l = true)
    (h : ∀ b ∈ l.head?, a ≤ b) : sortedLeB (a :: l) = true := by
  cases l with
  | nil => rfl
  | cons b t =>
    have hab : a ≤ b := h b rfl
    simp [sortedLeB, hab, hl]

theorem sortedLeB_tail {a : ℕ} {l : List ℕ} (h : sortedLeB (a :: l) = true) :
    sortedLeB l = true := by
  cases l with
  | nil => rfl
  | cons b t =>
    simp only [sortedLeB, Bool.and_eq_true] at h
    exact h.2

theorem sortedLeB_head {a b : ℕ} {l : List ℕ} (h : sortedLeB (a :: b :: l) = true) : a ≤ b := by
  simp only [sortedLeB, Bool.and_eq_true, decide_eq_true_eq] at h
  exact h.1

theorem sortedLeB_insert (x : ℕ) (l : List ℕ) (h : sortedLeB l = true) :
    sortedLeB (insertByKey (fun n => n) x l) = true := by
  induction l with
  | nil => rfl
  | cons y ys ih =>
    simp only [insertByKey]
    split
    · rename_i hyx
      have hys := sortedLeB_tail h
      have hrec := ih hys
      refine sortedLeB_cons_of hrec ?_
      intro b hb
      cases ys with
      | nil =>
        simp only [insertByKey, List.head?] at hb
        cases hb
        simpa using hyx
      | cons z zs =>
        have hyz : y ≤ z := sortedLeB_head h
        simp only [insertByKey] at hb
        split at hb
        · cases hb; exact hyz
        · cases hb; simpa using hyx
    · rename_i hyx
      have hxy : x ≤ y := by omega
      simp [sortedLeB, hxy, h]

theorem sortedLeB_sortByKey (l : List ℕ) : sortedLeB (sortByKey (fun n => n) l) = true := by
  suffices h : ∀ (l acc : List ℕ), sortedLeB acc = true →
      sortedLeB (l.foldl (fun acc x => insertByKey (fun n => n) x acc) acc) = true by
    exact h l [] rfl
  intro l
  induction l with
  | nil => intro acc h; simpa using h
  | cons x t ih =>
    intro acc h
    exact ih _ (sortedLeB_insert x acc h)

theorem dedupAdj_cons_head (x : ℕ) (r : List ℕ) : ∃ s, dedupAdj (x :: r) = x :: s := by
  induction r generalizing x with
  | nil => exact ⟨[], rfl⟩
  | cons y t ih =>
    by_cases hxy : x = y
    · subst hxy
      obtain ⟨s, hs⟩ := ih x
      exact ⟨s, by simp [dedupAdj, hs]⟩
    · obtain ⟨s, hs⟩ := ih y
      exact ⟨dedupAdj (y :: t), by simp [dedupAdj, hxy]⟩

theorem mem_dedupAdj (l : List ℕ) (a : ℕ) : a ∈ dedupAdj l ↔ a ∈ l := by
  induction l with
  | nil => simp [dedupAdj]
  | cons x t ih =>
    cases t with
    | nil => simp [dedupAdj]
    | cons y ys =>
      simp only [dedupAdj]
      split
      · rename_i hxy
        subst hxy
        rw [ih]
        simp
      · simp only [List.mem_cons, ih]

theorem sortedLtB_dedupAdj (l : List ℕ) (h : sortedLeB l = true) :
    sortedLtB (dedupAdj l) = true := by
  induction l with
  | nil => rfl
  | cons x t ih =>
    cases t with
    | nil => rfl
    | cons y ys =>
      simp only [dedupAdj]
      split
      · exact ih (sortedLeB_tail h)
      · rename_i hxy
        have hxy' : x ≤ y := sortedLeB_head h
        have hlt : x < y := lt_of_le_of_ne hxy' hxy
        obtain ⟨s, hs⟩ := dedupAdj_cons_head y ys
        rw [hs]
        have := ih (sortedLeB_tail h)
        rw [hs] at this
        simp [sortedLtB, hlt, this]

theorem sortedLtB_head_lt {a : ℕ} {l : List ℕ} (h : sortedLtB (a :: l) = true) :
    ∀ x ∈ l, a < x := by
  induction l generalizing a with
  | nil => simp
  | cons b t ih =>
    intro x hx
    simp only [sortedLtB, Bool.and_eq_true, decide_eq_true_eq] at h
    rcases List.mem_cons.mp hx with hxb | hxt
    · subst hxb; exact h.1
    · exact lt_trans h.1 (ih h.2 x hxt)

theorem sortedLtB_tail {a : ℕ} {l : List ℕ} (h : sortedLtB (a :: l) = true) :
    sortedLtB l = true := by
  cases l with
  | nil => rfl
  | cons b t =>
    simp only [sortedLtB, Bool.and_eq_true] at h
    exact h.2

/-- Two strictly sorted lists with the same members are equal. -/
theorem sortedLtB_ext (l1 : List ℕ) : ∀ l2 : List ℕ, sortedLtB l1 = true →
    sortedLtB l2 = true → (∀ x, x ∈ l1 ↔ x ∈ l2) → l1 = l2 := by
  induction l1 with
  | nil =>
    intro l2 _ _ hmem
    cases l2 with
    | nil => rfl
    | cons b t =>
      exact absurd ((hmem b).mpr (by simp)) (by simp)
  | cons a t1 ih =>
    intro l2 h1 h2 hmem
    cases l2 with
    | nil => exact absurd ((hmem a).mp (by simp)) (by simp)
    | cons b t2 =>
      have hab : a = b := by
        rcases List.mem_cons.mp ((hmem a).mp (by simp)) with h | h
        · exact h
        · rcases List.mem_cons.mp ((hmem b).mpr (by simp)) with h' | h'
          · exact h'.symm
          · have hba : b < a := sortedLtB_head_lt h2 a h
            have hab : a < b := sortedLtB_head_lt h1 b h'
            omega
      subst hab
      have htail : ∀ x, x ∈ t1 ↔ x ∈ t2 := by
        intro x
        constructor
        · intro hx
          have hax : a < x := sortedLtB_head_lt h1 x hx
          rcases List.mem_cons.mp ((hmem x).mp (by simp [hx])) with h | h
          · omega
          · exact h
        · intro hx
          have hax : a < x := sortedLtB_head_lt h2 x hx
          rcases List.mem_cons.mp ((hmem x).mpr (by simp [hx])) with h | h
          · omega
          · exact h
      rw [ih t2 (sortedLtB_tail h1) (sortedLtB_tail h2) htail]

/-- The sorted deduplicated index list depends only on the set of
collected indices. -/
theorem natSortDedup_ext (l1 l2 : List ℕ) (hmem : ∀ x, x ∈ l1 ↔ x ∈ l2) :
    natSortDedup l1 = natSortDedup l2 := by
  refine sortedLtB_ext _ _ (sortedLtB_dedupAdj _ (sortedLeB_sortByKey l1))
    (sortedLtB_dedupAdj _ (sortedLeB_sortByKey l2)) ?_
  intro x
  simp only [natSortDedup] at *
  rw [mem_dedupAdj, mem_dedupAdj, mem_sortByKey, mem_sortByKey]
  exact hmem x

theorem sortedLeB_head_le {a : ℕ} {l : List ℕ} (h : sortedLeB (a :: l) = true) :
    ∀ x ∈ l, a ≤ x := by
  induction l generalizing a with
  | nil => simp
  | cons b t ih =>
    intro x hx
    rcases List.mem_cons.mp hx with hxb | hxt
    · subst hxb; exact sortedLeB_head h
    · exact le_trans (sortedLeB_head h) (ih (sortedLeB_tail h) x hxt)

theorem insertByKey_at_end (x : ℕ) (acc : List ℕ) (h : ∀ y ∈ acc, y ≤ x) :
    insertByKey (fun n => n) x acc = acc ++ [x] := by
  induction acc with
  | nil => rfl
  | cons y ys ih =>
    have hy : y ≤ x := h y (by simp)
    simp only [insertByKey, hy, if_pos]
    rw [ih (fun z hz => h z (by simp [hz]))]
    rfl

theorem sortedLeB_append_cross {acc : List ℕ} {x : ℕ} {t : List ℕ}
    (h : sortedLeB (acc ++ x :: t) = true) : ∀ y ∈ acc, y ≤ x := by
  induction acc with
  | nil => simp
  | cons a r ih =>
    intro y hy
    rcases List.mem_cons.mp hy with hya | hyr
    · subst hya
      exact sortedLeB_head_le h x (by simp)
    · exact ih (sortedLeB_tail h) y hyr

theorem sortedLeB_append_right {acc l : List ℕ} (h : sortedLeB (acc ++ l) = true) :
    sortedLeB l = true := by
  induction acc with
  | nil => simpa using h
  | cons a r ih => exact ih (sortedLeB_tail h)

theorem sortByKey_of_sorted (l : List ℕ) (h : sortedLeB l = true) :
    sortByKey (fun n => n) l = l := by
  suffices haux : ∀ (l acc : List ℕ), sortedLeB (acc ++ l) = true →
      l.foldl (fun acc x => insertByKey (fun n => n) x acc) acc = acc ++ l by
    simpa [sortByKey] using haux l [] (by simpa using h)
  intro l
  induction l with
  | nil => intro acc _; simp
  | cons x t ih =>
    intro acc hacc
    have hcross : ∀ y ∈ acc, y ≤ x := sortedLeB_append_cross hacc
    simp only [List.foldl_cons]
    rw [insertByKey_at_end x acc hcross]
    have : (acc ++ [x]) ++ t = acc ++ x :: t := by simp
    rw [ih (acc ++ [x]) (by rw [this]; exact hacc), this]

theorem dedupAdj_of_strict (l : List ℕ) (h : sortedLtB l = true) : dedupAdj l = l := by
  induction l with
  | nil => rfl
  | cons x t ih =>
    cases t with
    | nil => rfl
    | cons y ys =>
      simp only [sortedLtB, Bool.and_eq_true, decide_eq_true_eq] at h
      have hxy : x ≠ y := by omega
      simp only [dedupAdj, hxy, if_neg]
      rw [ih h.2]
      simp [hxy]

theorem sortedLtB_range' (n a : ℕ) : sortedLtB (List.range' a n) = true := by
  induction n generalizing a with
  | zero => rfl
  | succ m ih =>
    cases m with
    | zero => rfl
    | succ k =>
      have h1 : List.range' a (k + 1 + 1) = a :: List.range' (a + 1) (k + 1) := rfl
      have h2 : List.range' (a + 1) (k + 1) = (a + 1) :: List.range' (a + 2) k := rfl
      rw [h1, h2]
      have := ih (a + 1)
      rw [h2] at this
      simp only [sortedLtB, Bool.and_eq_true, decide_eq_true_eq]
      exact ⟨by omega, by simpa [sortedLtB] using this⟩

theorem sortedLeB_of_strict (l : List ℕ) (h : sortedLtB l = true) : sortedLeB l = true := by
  induction l with
  | nil => rfl
  | cons x t ih =>
    cases t with
    | nil => rfl
    | cons y ys =>
      simp only [sortedLtB, Bool.and_eq_true, decide_eq_true_eq] at h
      have := ih h.2
      simp only [sortedLeB, Bool.and_eq_true, decide_eq_true_eq]
      exact ⟨by omega, this⟩

/-- Sorting then deduplicating an already strictly sorted list changes
nothing. -/
theorem natSortDedup_of_strict (l : List ℕ) (h : sortedLtB l = true) :
    natSortDedup l = l := by
  simp only [natSortDedup]
  rw [sortByKey_of_sorted l (sortedLeB_of_strict l h), dedupAdj_of_strict l h]

theorem sortedLtB_rust_range_list (a b : ℕ) : sortedLtB (rust_range_list a b) = true := by
  unfold rust_range_list
  split
  · exact sortedLtB_range' _ _
  · rfl

theorem digits1_isEmpty_false {l : List Char} (h : digits1 l = true) : l.isEmpty = false := by
  cases l with
  | nil => simp [digits1] at h
  | cons c t => rfl

/- ------------------------------------------------------------------ -/
/- Shape facts for a well-formed range token built from two digit     -/
/- strings and the line marker.                                       -/
/- ------------------------------------------------------------------ -/

theorem range_token_takeWhile (d1 d2 : List Char) (hd1 : digits1 d1 = true) :
    ((d1 ++ '-' :: (d2 ++ ['l'])).takeWhile isDigitC) = d1 := by
  rw [takeWhile_all_append _ _ _ (digits1_all hd1),
    takeWhile_cons_false _ _ _ (by decide), List.append_nil]

theorem range_token_dropWhile (d1 d2 : List Char) (hd1 : digits1 d1 = true) :
    ((d1 ++ '-' :: (d2 ++ ['l'])).dropWhile isDigitC) = '-' :: (d2 ++ ['l']) := by
  rw [dropWhile_all_append _ _ _ (digits1_all hd1), dropWhile_cons_false _ _ _ (by decide)]

theorem digit_block_l_takeWhile (d2 : List Char) (hd2 : digits1 d2 = true) :
    ((d2 ++ ['l']).takeWhile isDigitC) = d2 := by
  rw [takeWhile_all_append _ _ _ (digits1_all hd2),
    takeWhile_cons_false _ _ _ (by decide), List.append_nil]

theorem digit_block_l_dropWhile (d2 : List Char) (hd2 : digits1 d2 = true) :
    ((d2 ++ ['l']).dropWhile isDigitC) = ['l'] := by
  rw [dropWhile_all_append _ _ _ (digits1_all hd2), dropWhile_cons_false _ _ _ (by decide)]

theorem range_token_no_comma (d1 d2 : List Char) (hd1 : digits1 d1 = true)
    (hd2 : digits1 d2 = true) :
    splitComma (d1 ++ '-' :: (d2 ++ ['l'])) = [d1 ++ '-' :: (d2 ++ ['l'])] := by
  refine splitComma_no_comma _ (fun c hc => ?_)
  have hcomma : isDigitC ',' = false := by decide
  rcases List.mem_append.mp hc with h1 | h2
  · exact eq_false (ne_of_digit (digits1_all hd1 c h1) hcomma)
  · rcases List.mem_cons.mp h2 with hdash | h3
    · subst hdash; simp
    · rcases List.mem_append.mp h3 with h4 | h5
      · exact eq_false (ne_of_digit (digits1_all hd2 c h4) hcomma)
      · simp only [List.mem_singleton] at h5
        subst h5; simp

/-- C1, original statement refuted: the expression consisting of the
single well-formed inverted range token 3-2l parses successfully but
emits no index at all, although the claim requires every index of the
closed interval from 2 to 3 to appear on the line axis. -/
theorem c1_inverted_range_counterexample :
    validate_export_subtable (strL "3-2l") = .ok ([], []) ∧
      ¬ ((2 : ℕ) ∈ ([] : List ℕ) ∧ (3 : ℕ) ∈ ([] : List ℕ)) := by
  constructor
  · decide
  · simp

/-- C1 amended: a well-formed range token start-stop with the line
marker expands to exactly the indices Rust's start..=stop loop visits:
the closed interval when start is at most stop, and nothing at all when
the range is inverted — the inverted range is accepted without error
but contributes no indices. -/
theorem c1_inverted_range_amended (d1 d2 : List Char)
    (hd1 : digits1 d1 = true) (hd2 : digits1 d2 = true)
    (hb1 : natOfDigits d1 < 2 ^ 64) (hb2 : natOfDigits d2 < 2 ^ 64) :
    validate_export_subtable (d1 ++ '-' :: (d2 ++ ['l'])) =
      .ok (rust_range_list (natOfDigits d1) (natOfDigits d2), []) := by
  have htw := range_token_takeWhile d1 d2 hd1
  have hdw := range_token_dropWhile d1 d2 hd1
  have htw2 := digit_block_l_takeWhile d2 hd2
  have hdw2 := digit_block_l_dropWhile d2 hd2
  have he1 := digits1_isEmpty_false hd1
  have he2 := digits1_isEmpty_false hd2
  have hpat : sub_pat0 (d1 ++ '-' :: (d2 ++ ['l'])) = true := by
    simp [sub_pat0, htw, hdw, htw2, hdw2, he1, he2, is_lc_char]
  have hfirst : firstIdx subtable_pats (d1 ++ '-' :: (d2 ++ ['l'])) = some 0 := by
    simp [firstIdx, subtable_pats, firstIdxAux, hpat]
  have hb1' : natOfDigits d1 < 18446744073709551616 := by
    have := hb1; norm_num at this; exact this
  have hb2' : natOfDigits d2 < 18446744073709551616 := by
    have := hb2; norm_num at this; exact this
  have hparse : parse_range_subtable (d1 ++ '-' :: (d2 ++ ['l'])) =
      some ((natOfDigits d1, natOfDigits d2), .Line) := by
    simp [parse_range_subtable, htw, hdw, htw2, hdw2, parseUsize, hd1, hd2, hb1', hb2',
      lc_of_char]
  rw [validate_export_subtable, range_token_no_comma d1 d2 hd1 hd2]
  simp only [collect_subtable, hfirst, hparse, List.nil_append]
  rw [natSortDedup_of_strict _ (sortedLtB_rust_range_list _ _)]
  rfl

/-- Witness for the amended C1 at the inverted token 3-2l: both bounds
are digit strings within the usize range, and the token yields the
empty expansion. -/
theorem c1_inverted_range_amended_witness :
    digits1 (strL "3") = true ∧ digits1 (strL "2") = true ∧
      validate_export_subtable (strL "3-2l") = .ok ([], []) := by
  refine ⟨by decide, by decide, ?_⟩
  have h := c1_inverted_range_amended (strL "3") (strL "2") (by decide) (by decide)
    (by decide) (by decide)
  exact h

/-- C2 refuted by the code: each selector parser has a reachable panic.
The color validator asserts each axis bucket nonempty, so a valid
line-only expression panics on the empty column bucket; the force-parse
validator has the same assertion, reached by a well-formed inverted
range whose expansion is empty; and the subtable validator unwraps a
usize parse that overflows on a 23-digit index. -/
theorem c2_parser_panics :
    validate_export_color (strL "1rl") = .panic ∧
      validate_force_parse (strL "3-2ls") = .panic ∧
      validate_export_subtable (strL "99999999999999999999999l") = .panic := by
  refine ⟨by decide, by decide, by decide⟩

/-- C3: the subtable selector result depends only on the sets of line
and column indices contributed by the tokens; two successfully parsed
expressions whose token loops collect the same index sets yield the
same final sorted, deduplicated result. -/
theorem c3_order_invariance (s1 s2 : List Char) (l1 c1 l2 c2 : List ℕ)
    (h1 : collect_subtable s1 (splitComma s1) 0 ([], []) = .ok (l1, c1))
    (h2 : collect_subtable s2 (splitComma s2) 0 ([], []) = .ok (l2, c2))
    (hl12 : ∀ x ∈ l1, x ∈ l2) (hl21 : ∀ x ∈ l2, x ∈ l1)
    (hc12 : ∀ x ∈ c1, x ∈ c2) (hc21 : ∀ x ∈ c2, x ∈ c1) :
    validate_export_subtable s1 = validate_export_subtable s2 := by
  rw [validate_export_subtable, validate_export_subtable, h1, h2]
  dsimp only
  rw [natSortDedup_ext l1 l2 (fun x => ⟨hl12 x, hl21 x⟩),
    natSortDedup_ext c1 c2 (fun x => ⟨hc12 x, hc21 x⟩)]

/-- Witness for C3 at the two expressions of the claim: their token
loops collect the same index sets, the results coincide, and the value
is lines 1, 2, 3, 5 with columns 2, 3, 4. -/
theorem c3_order_invariance_witness :
    validate_export_subtable (strL "5l,2-4c,1-2l,1-3l,3-4c") =
        validate_export_subtable (strL "1-3l,2-4c,5l") ∧
      validate_export_subtable (strL "1-3l,2-4c,5l") = .ok ([1, 2, 3, 5], [2, 3, 4]) := by
  constructor
  · exact c3_order_invariance _ _ [5, 1, 2, 1, 2, 3] [2, 3, 4, 3, 4] [1, 2, 3, 5] [2, 3, 4]
      (by decide) (by decide) (by decide) (by decide) (by decide) (by decide)
  · decide

/-- C4: the color expression of the claim fails with a Conflicts
diagnostic whose reason names index 3 bound to Yellow and to Grey; the
conflict is detected in the column bucket (whose raw contents are shown
by the collect equation), while the line bucket passes
post-processing. -/
theorem c4_color_conflict :
    (validate_export_color (strL "1rl,3gl,5bl,2-4yc,3-4xc")).isErrB = true ∧
      (validate_export_color (strL "1rl,3gl,5bl,2-4yc,3-4xc")).getErrD.name =
        strL "Conflicts" ∧
      containsSeq (strL "(3, Yellow)")
        ((validate_export_color (strL "1rl,3gl,5bl,2-4yc,3-4xc")).getErrD.reason.getD [])
        = true ∧
      containsSeq (strL "(3, Grey)")
        ((validate_export_color (strL "1rl,3gl,5bl,2-4yc,3-4xc")).getErrD.reason.getD [])
        = true ∧
      collect_color (strL "1rl,3gl,5bl,2-4yc,3-4xc")
          (splitComma (strL "1rl,3gl,5bl,2-4yc,3-4xc")) 0 ([], []) =
        .ok ([(1, .Red), (3, .Green), (5, .Blue)],
          [(2, .Yellow), (3, .Yellow), (4, .Yellow), (3, .Grey), (4, .Grey)]) ∧
      post_process_color (strL "1rl,3gl,5bl,2-4yc,3-4xc")
          [(1, .Red), (3, .Green), (5, .Blue)] =
        .ok [(1, .Red), (3, .Green), (5, .Blue)] ∧
      (post_process_color (strL "1rl,3gl,5bl,2-4yc,3-4xc")
          [(2, .Yellow), (3, .Yellow), (4, .Yellow), (3, .Grey), (4, .Grey)]).getErrD =
        (validate_export_color (strL "1rl,3gl,5bl,2-4yc,3-4xc")).getErrD := by
  refine ⟨by decide, by decide, by decide, by decide, by decide, by decide, by decide⟩

/-- C8 refuted: for the malformed second token xx of 1-3l,xx the
diagnostic reports the byte span (4, 6), but the token actually
occupies bytes 5 to 7 of the expression — the slice at the reported
span is the comma and one x, because the loop advances its offset by
the token length without the separating comma. -/
theorem c8_span_bug :
    (validate_export_subtable (strL "1-3l,xx")).isErrB = true ∧
      (validate_export_subtable (strL "1-3l,xx")).getErrD.error_arg = some (strL "xx") ∧
      (validate_export_subtable (strL "1-3l,xx")).getErrD.error_location = some (4, 6) ∧
      ((strL "1-3l,xx").drop 5).take 2 = strL "xx" ∧
      ((strL "1-3l,xx").drop 4).take 2 = strL ",x" := by
  refine ⟨by decide, by decide, by decide, by decide, by decide⟩

/-- C9: message assembly emits, in order, the severity tag, the
description, the attempted-fixes block, the how-to-fix block and the
caused-by block (each optional block only when present), returning the
full message exactly when the severity reaches the showing level and
the empty string otherwise — never a partial message. -/
theorem c9_message_assembly (e : ErrorView) (showing : ErrorLevel) :
    (ErrorView.message e showing =
      (if levelGeB e.level showing then
        level_tag e.level ++ e.describe
          ++ (match e.attempt with
              | none => []
              | some a =>
                strL "\nProgram has tried this(these) attempt to fix this error:\n\t " ++ a)
          ++ (match e.hint with
              | none => []
              | some h =>
                strL "\nYou may try the following method(s) to fix this:\n\t " ++ h ++ strL " ")
          ++ (match e.reason with
              | none => []
              | some r =>
                strL "\nThis error is caused by the following reason(s):\n " ++ r)
      else [])) ∧
      (ErrorView.message e showing = [] ↔ levelGeB e.level showing = false) := by
  have htag : level_tag e.level ≠ [] := by cases e.level <;> decide
  constructor
  · rfl
  · simp only [ErrorView.message]
    split
    · rename_i h
      rw [h]
      simp only [List.append_assoc, List.append_eq_nil]
      constructor
      · intro hx
        exact absurd hx.1 htag
      · intro hx
        cases hx
    · rename_i h
      simp only [Bool.not_eq_true] at h
      simp [h]

theorem lowerChar_digit {c : Char} (h : isDigitC c = true) : lowerChar c = c := by
  simp only [isDigitC, Bool.and_eq_true, decide_eq_true_eq] at h
  simp only [lowerChar]
  rw [if_neg]
  simp only [Bool.and_eq_true, decide_eq_true_eq]
  omega

theorem all_isDigitC_false_of_mem {l : List Char} {x : Char} (hx : x ∈ l)
    (hxd : isDigitC x = false) : l.all isDigitC = false := by
  by_contra h
  rw [Bool.not_eq_false] at h
  have := List.all_eq_true.mp h x hx
  rw [hxd] at this
  cases this

theorem all_isRadixDigit10_false_of_underscore {l : List Char} (hx : '_' ∈ l) :
    l.all (isRadixDigit 10) = false := by
  by_contra h
  rw [Bool.not_eq_false] at h
  have := List.all_eq_true.mp h '_' hx
  rw [show isRadixDigit 10 '_' = false by decide] at this
  cases this

theorem digitsParse10_underscore {l : List Char} (hx : '_' ∈ l) :
    digitsParse 10 l = none := by
  simp [digitsParse, all_isRadixDigit10_false_of_underscore hx]

theorem ubig_underscore (c : Char) (t d2 : List Char) (hc : isDigitC c = true)
    (ht : ∀ x ∈ t, isDigitC x = true) :
    ubigParseRadixTagged (c :: (t ++ '_' :: d2)) = none := by
  have hmem : '_' ∈ c :: (t ++ '_' :: d2) := by simp
  cases t with
  | nil =>
    simp only [List.nil_append, ubigParseRadixTagged]
    rw [if_neg (by simp), if_neg (by simp), if_neg (by simp)]
    exact digitsParse10_underscore hmem
  | cons c2 t2 =>
    have hc2 : isDigitC c2 = true := ht c2 (by simp)
    simp only [List.cons_append, ubigParseRadixTagged]
    rw [if_neg, if_neg, if_neg]
    · exact digitsParse10_underscore (by simp)
    · simp only [Bool.and_eq_true, decide_eq_true_eq, not_and]
      intro _
      exact ne_of_digit hc2 (by decide)
    · simp only [Bool.and_eq_true, decide_eq_true_eq, not_and]
      intro _
      exact ne_of_digit hc2 (by decide)
    · simp only [Bool.and_eq_true, decide_eq_true_eq, not_and]
      intro _
      exact ne_of_digit hc2 (by decide)

theorem ibig_parse_underscore (d1 d2 : List Char) (hd1 : digits1 d1 = true) :
    ibig_parse (d1 ++ '_' :: d2) = none := by
  obtain ⟨c, t, rfl⟩ : ∃ c t, d1 = c :: t := by
    cases d1 with
    | nil => simp [digits1] at hd1
    | cons c t => exact ⟨c, t, rfl⟩
  have hc : isDigitC c = true := digits1_all hd1 c (by simp)
  have hcm : c ≠ '-' := ne_of_digit hc (by decide)
  have hcp : c ≠ '+' := ne_of_digit hc (by decide)
  have hub := ubig_underscore c t d2 hc (fun x hx => digits1_all hd1 x (by simp [hx]))
  rw [List.cons_append, ibig_parse]
  rotate_left
  · intro r h
    injection h with h1 _
    exact hcm h1
  · intro r h
    injection h with h1 _
    exact hcp h1
  rw [hub]
  rfl

theorem stripSign_of_digit {c : Char} (hc : isDigitC c = true) (r : List Char) :
    stripSign (c :: r) = c :: r := by
  rw [stripSign]
  rotate_left
  · intro r2 h
    injection h with h1 _
    exact ne_of_digit hc (by decide) h1
  · intro r2 h
    injection h with h1 _
    exact ne_of_digit hc (by decide) h1

theorem eqCI_cons_ne {c w : Char} (r wr : List Char) (h : lowerChar c ≠ lowerChar w) :
    eqCI (c :: r) (w :: wr) = false := by
  simp only [eqCI, List.map_cons]
  apply decide_eq_false
  intro hx
  injection hx with h1 _
  exact h h1

theorem numberAccepts_underscore (c : Char) (t d2 : List Char) (hc : isDigitC c = true)
    (ht : ∀ x ∈ t, isDigitC x = true) :
    numberAccepts (c :: (t ++ '_' :: d2)) = false := by
  have htw : (c :: (t ++ '_' :: d2)).takeWhile isDigitC = c :: t := by
    rw [← List.cons_append, takeWhile_all_append _ _ _ ?_,
      takeWhile_cons_false _ _ _ (by decide), List.append_nil]
    intro x hx
    rcases List.mem_cons.mp hx with h | h
    · subst h; exact hc
    · exact ht x h
  have hdw : (c :: (t ++ '_' :: d2)).dropWhile isDigitC = '_' :: d2 := by
    rw [← List.cons_append, dropWhile_all_append _ _ _ ?_,
      dropWhile_cons_false _ _ _ (by decide)]
    intro x hx
    rcases List.mem_cons.mp hx with h | h
    · subst h; exact hc
    · exact ht x h
  rw [numberAccepts]
  rotate_left
  · intro r h
    injection h with h1 _
    exact ne_of_digit hc (by decide) h1
  rw [htw, hdw]
  rfl

theorem float_accepts_underscore (d1 d2 : List Char) (hd1 : digits1 d1 = true) :
    float_accepts (d1 ++ '_' :: d2) = false := by
  obtain ⟨c, t, rfl⟩ : ∃ c t, d1 = c :: t := by
    cases d1 with
    | nil => simp [digits1] at hd1
    | cons c t => exact ⟨c, t, rfl⟩
  have hc : isDigitC c = true := digits1_all hd1 c (by simp)
  have ht : ∀ x ∈ t, isDigitC x = true := fun x hx => digits1_all hd1 x (by simp [hx])
  have hlc : lowerChar c = c := lowerChar_digit hc
  rw [List.cons_append]
  simp only [float_accepts]
  rw [stripSign_of_digit hc]
  rw [show strL "inf" = 'i' :: strL "nf" from rfl,
    show strL "infinity" = 'i' :: strL "nfinity" from rfl,
    show strL "nan" = 'n' :: strL "an" from rfl]
  rw [eqCI_cons_ne _ _ (by rw [hlc]; exact ne_of_digit hc (by decide)),
    eqCI_cons_ne _ _ (by rw [hlc]; exact ne_of_digit hc (by decide)),
    eqCI_cons_ne _ _ (by rw [hlc]; exact ne_of_digit hc (by decide)),
    numberAccepts_underscore c t d2 hc ht]
  rfl

/-- C6: underscore-separated numeric-looking text is rejected by both
the arbitrary-precision integer parser and the float parser, so cell
auto-inference classifies any fragment made of digits, an underscore
and digits as an opaque string holding the original text. -/
theorem c6_underscore_string (d1 d2 : List Char) (hd1 : digits1 d1 = true)
    (hd2 : digits1 d2 = true) :
    Tablecellcore.auto_from (d1 ++ '_' :: d2) = .String (d1 ++ '_' :: d2) := by
  have hibig := ibig_parse_underscore d1 d2 hd1
  have hfloat := float_accepts_underscore d1 d2 hd1
  simp [Tablecellcore.auto_from, hibig, hfloat]

/-- Witness for C6 at 10_0: both blocks are digit strings and the cell
infers String holding the original text. -/
theorem c6_underscore_string_witness :
    digits1 (strL "10") = true ∧ digits1 (strL "0") = true ∧
      Tablecellcore.auto_from (strL "10_0") = .String (strL "10_0") := by
  refine ⟨by decide, by decide, ?_⟩
  exact c6_underscore_string (strL "10") (strL "0") (by decide) (by decide)

/-- C7: the strict forced conversions fail exactly when the literal
does not parse as the requested type, while the advisory forced
conversions of the colored cell fall back to full auto-inference on
parse failure and therefore always return a cell. -/
theorem c7_force_semantics (v : List Char) :
    (Tablecellcore.force_as_int v = .error () ↔ ibig_parse v = none) ∧
      (Tablecellcore.force_as_float v = .error () ↔ float_accepts v = false) ∧
      (ibig_parse v = none → Core.Tablecell.force_as_int v = Core.Tablecell.auto_from v) ∧
      (float_accepts v = false →
        Core.Tablecell.force_as_float v = Core.Tablecell.auto_from v) := by
  refine ⟨?_, ?_, ?_, ?_⟩
  · cases h : ibig_parse v with
    | none => simp [Tablecellcore.force_as_int, h]
    | some z => simp [Tablecellcore.force_as_int, h]
  · cases h : float_accepts v with
    | false => simp [Tablecellcore.force_as_float, h]
    | true => simp [Tablecellcore.force_as_float, h]
  · intro h
    simp [Core.Tablecell.force_as_int, Tablecellcore.force_as_int, h]
  · intro h
    simp [Core.Tablecell.force_as_float, Tablecellcore.force_as_float, h]

/-- Witness for C7 at abc: the strict integer conversion fails with an
error, while the advisory one silently degrades to auto-inference,
which yields the string cell. -/
theorem c7_force_semantics_witness :
    Tablecellcore.force_as_int (strL "abc") = .error () ∧
      Core.Tablecell.force_as_int (strL "abc") =
        { core := .String (strL "abc"), color := .Black } := by
  have h := c7_force_semantics (strL "abc")
  refine ⟨h.1.mpr (by decide), ?_⟩
  rw [h.2.2.1 (by decide)]
  decide

/-- C10: from_type unwraps the strict conversions, so it panics exactly
when the forced integer or float parse fails, returns a cell exactly
when it succeeds, and never fails for the string force type. -/
theorem c10_from_type_panics (v : List Char) :
    (Core.Tablecell.from_type v .I = none ↔ ibig_parse v = none) ∧
      (Core.Tablecell.from_type v .F = none ↔ float_accepts v = false) ∧
      Core.Tablecell.from_type v .S =
        some { core := .String v, color := .Black } := by
  refine ⟨?_, ?_, rfl⟩
  · cases h : ibig_parse v with
    | none => simp [Core.Tablecell.from_type, Tablecellcore.force_as_int, h]
    | some z => simp [Core.Tablecell.from_type, Tablecellcore.force_as_int, h]
  · cases h : float_accepts v with
    | false => simp [Core.Tablecell.from_type, Tablecellcore.force_as_float, h]
    | true => simp [Core.Tablecell.from_type, Tablecellcore.force_as_float, h]

/-- C5: for a fragment that reaches the float classification (all ten
machine-integer parses fail), is accepted by both float parses, whose
single- and double-precision renderings coincide, and whose
single-precision value compares equal to zero or negative zero (such a
value is neither infinite nor NaN, which the two corresponding
hypotheses record), auto-inference chooses the wide double-precision
representation exactly when some segment of the fragment split on dot,
e and E parses to a non-zero f64, and the narrow single-precision
representation otherwise.  The statement holds for every model of the
standard library's float operations, which auto-inference only calls
through the FloatLib interface. -/
theorem c5_zero_precision_scan {Fs Fd : Type} (lib : FloatLib Fs Fd) (value : List Char)
    (v32 : Fs) (v64 : Fd)
    (hint0 : @Rich.int_cell Fs Fd value = none)
    (h32 : lib.parse32 value = some v32)
    (h64 : lib.parse64 value = some v64)
    (hinf : lib.is_infinite v32 = false)
    (hnan : lib.is_nan v32 = false)
    (hrender : lib.to_string32 v32 = lib.to_string64 v64)
    (hzero : (lib.eq_zero v32 || lib.eq_neg_zero v32) = true) :
    (Rich.Tablecell.auto_from lib value = some (.F64 v64) ↔
        Rich.zero_scan lib (Rich.split_dot_e value) = true) ∧
      (Rich.Tablecell.auto_from lib value = some (.F32 v32) ↔
        Rich.zero_scan lib (Rich.split_dot_e value) = false) := by
  simp only [Rich.Tablecell.auto_from, hint0, h32, h64, hinf, hnan, hrender, hzero]
  simp only [decide_eq_true_eq, decide_True, Bool.true_and, if_true, Bool.false_eq_true,
    if_false, decide_eq_true_eq]
  cases hscan : Rich.zero_scan lib (Rich.split_dot_e value) with
  | true => simp
  | false => simp

/-- A concrete model of the float library reflecting the real behaviour
of the Rust standard library on the fragment 1e-400 and its segments:
the fragment itself parses to (double-precision) zero rendering as 0 at
both widths, while the segments 1 and -400 parse to non-zero values.
The f64 values are represented by whether they are zero. -/
def exampleFloatLib : FloatLib Unit Bool where
  parse32 := fun s => if s = strL "1e-400" then some () else none
  parse64 := fun s =>
    if s = strL "1e-400" then some true
    else if s = strL "1" then some false
    else if s = strL "-400" then some false
    else none
  is_infinite := fun _ => false
  is_nan := fun _ => false
  eq_zero := fun _ => true
  eq_neg_zero := fun _ => false
  to_string32 := fun _ => strL "0"
  to_string64 := fun b => if b then strL "0" else strL "1"
  eq_zero64 := fun b => b

/-- Witness for C5 at the fragment 1e-400: a segment of the split
parses to a non-zero number, so the cell is classified at the wide
double-precision representation. -/
theorem c5_zero_precision_scan_witness :
    Rich.zero_scan exampleFloatLib (Rich.split_dot_e (strL "1e-400")) = true ∧
      Rich.Tablecell.auto_from exampleFloatLib (strL "1e-400") = some (.F64 true) := by
  have h := c5_zero_precision_scan exampleFloatLib (strL "1e-400") () true
    (by decide) (by decide) (by decide) (by decide) (by decide) (by decide) (by decide)
  exact ⟨by decide, h.1.mpr (by decide)⟩
